import Mathlib

/-!
Verification of the paste storage and lifecycle subsystem of the
simple-pastebin application (src/app.py), via a shallow embedding.

Modelling conventions:
* Times are integers counting minutes on a common clock.  The stored
  column timestamp is written by datetime.now(timezone.utc), so a
  record timestamp is a UTC wall-clock reading.  The cleanup job reads
  datetime.now() with no timezone, i.e. the LOCAL wall clock; we model
  the local reading as nowUtc + tzOffset where tzOffset is the offset
  of the server timezone from UTC, in minutes.
* The database table is a list of rows in insertion (rowid) order.
* Random id generation (urlsafe_b64encode(urandom(4)).decode()[:6]) is
  modelled by passing the generated candidate id as an argument.
* The pygments lexer table (get_all_lexers, get_lexer_by_name) is
  supplied externally; we model it as a list of recognized names.
-/

namespace SimplePastebin

/-- A row of the Paste table: columns id, body, language, timestamp,
deleted, exactly as declared by the model class in src/app.py. -/
structure Paste where
  id : String
  body : String
  language : String
  timestamp : Int
  deleted : Bool
  deriving Repr, DecidableEq

/-- The Paste table: rows in insertion (rowid) order. -/
abbrev Store := List Paste

/-! ### Creation path (src/app.py lines 94-102)

The index POST handler builds a PasteForm, validates it, and on
success adds one Paste row and commits.  The id column default
generates one random candidate; the commit either succeeds or, when
the candidate equals an existing primary key, raises an IntegrityError
that the handler does not catch.  On validation failure the handler
falls through and renders the page again without touching the table. -/

/-- A string is blank when stripping whitespace leaves nothing; the
DataRequired validator of wtforms rejects exactly the blank strings
(empty data is also rejected, and the empty string is vacuously
blank). -/
def isBlank (s : String) : Bool :=
  s.data.all Char.isWhitespace

/-- Form validation from src/app.py lines 40-48: body carries
DataRequired, and language is a SelectField whose submitted value must
be one of the choices enumerated from the installed lexers. -/
def formValidates (choices : List String) (body language : String) : Bool :=
  !(isBlank body) && choices.contains language

/-- Outcome of one POST to the index route. -/
inductive CreateResult where
  /-- Validation passed and the commit succeeded: the response
  redirects to the new id and the table gained one row. -/
  | ok (id : String) (s : Store)
  /-- The generated id equals an existing primary key: the commit
  raises IntegrityError, which the handler does not catch; the
  transaction rolls back and the table is unchanged. -/
  | integrityError
  /-- The form did not validate: the handler renders the page again
  and the table is unchanged. -/
  | validationError (s : Store)
  deriving Repr, DecidableEq

/-- The creation path of src/app.py lines 98-102.  genId is the one
candidate produced by the id column default, now the value of
datetime.now(timezone.utc) at insertion time.  There is no retry
loop: a single insert is attempted. -/
def create (choices : List String) (genId : String) (now : Int)
    (s : Store) (body language : String) : CreateResult :=
  if formValidates choices body language then
    if s.any (fun p => p.id == genId) then
      CreateResult.integrityError
    else
      CreateResult.ok genId
        (s ++ [{ id := genId, body := body, language := language,
                 timestamp := now, deleted := false }])
  else
    CreateResult.validationError s

/-! ### Expiration sweep (src/app.py lines 74-83)

cleanup_old_pastes runs UPDATE paste SET deleted = true WHERE
timestamp < datetime.now() - timedelta(minutes = 10).  Note that
datetime.now() is the naive local wall clock, while the stored
timestamps are UTC readings. -/

/-- Retention window of the source: timedelta(minutes = 10). -/
def retentionMinutes : Int := 10

/-- The cutoff the source computes: datetime.now() - the window, where
datetime.now() is the local wall clock, nowUtc + tzOffset. -/
def codeCutoff (nowUtc tzOffset : Int) : Int :=
  (nowUtc + tzOffset) - retentionMinutes

/-- Modelled from the spec: each sweep run computes
cutoff = now(UTC) - retentionWindow (section 4.4 of the spec).  This
definition follows the words of the spec and is compared with
codeCutoff, the cutoff the source actually computes. -/
def specCutoff (nowUtc : Int) : Int :=
  nowUtc - retentionMinutes

/-- Effect of the UPDATE on one row: rows with timestamp < cutoff get
deleted = true; other rows are untouched. -/
def markExpired (cutoff : Int) (p : Paste) : Paste :=
  if p.timestamp < cutoff then { p with deleted := true } else p

/-- The UPDATE applied to the whole table. -/
def expireOlderThan (cutoff : Int) (s : Store) : Store :=
  s.map (markExpired cutoff)

/-- One run of cleanup_old_pastes (src/app.py lines 74-83). -/
def cleanup_old_pastes (nowUtc tzOffset : Int) (s : Store) : Store :=
  expireOlderThan (codeCutoff nowUtc tzOffset) s

/-- Number of rows a run with the given cutoff would newly mark: the
non-deleted rows with timestamp < cutoff.  The source discards the
UPDATE result, so this is the derived observable for the count of
newly marked records. -/
def newlyMarkedCount (cutoff : Int) (s : Store) : Nat :=
  (s.filter (fun p => !p.deleted && decide (p.timestamp < cutoff))).length

/-! ### Retrieval (src/app.py lines 114-135) -/

/-- The query of the paste route: select by id with deleted = False,
then scalar_one_or_none.  The primary key constraint guarantees at
most one row per id, under which scalar_one_or_none is the first
match. -/
def getVisible (s : Store) (id : String) : Option Paste :=
  s.find? (fun p => p.id == id && !p.deleted)

/-- Result of GET /<id>. -/
inductive PageResult where
  /-- abort(404): no visible row with this id. -/
  | notFound
  /-- get_lexer_by_name raised ClassNotFound; the handler does not
  catch it, so the request fails with a server error. -/
  | serverError
  /-- The rendered page, carrying the lexer used and the row.  The
  markup itself is produced by the excluded pygments collaborator and
  is not modelled. -/
  | page (lexerName : String) (p : Paste)
  deriving Repr, DecidableEq

/-- get_lexer_by_name: returns the lexer when the name is recognized,
otherwise raises ClassNotFound (modelled as none). -/
def getLexerByName (known : List String) (lang : String) : Option String :=
  if known.contains lang then some lang else none

/-- The paste route (src/app.py lines 114-135): fetch the visible row,
404 when absent, then look the language up in pygments and render.
The lexer lookup is not wrapped in any exception handler. -/
def pasteRoute (known : List String) (s : Store) (id : String) : PageResult :=
  match getVisible s id with
  | none => PageResult.notFound
  | some p =>
    match getLexerByName known p.language with
    | none => PageResult.serverError
    | some lex => PageResult.page lex p

/-! ### Listing (src/app.py lines 104-110)

The index GET path runs select(Paste) ordered by timestamp descending,
filtered on deleted == False, limited to 10.  The query has no
secondary sort key, so SQL fixes no order among rows of equal
timestamp: the admissible results are all prefixes of length at most
10 of some timestamp-descending arrangement of the visible rows. -/

/-- The visible rows: deleted == False. -/
def visible (s : Store) : Store :=
  s.filter (fun p => !p.deleted)

/-- Sortedness by timestamp descending. -/
def tsDescSorted (l : List Paste) : Prop :=
  l.Sorted (fun a b => b.timestamp ≤ a.timestamp)

/-- Admissible results of the listing query with limit n: the
database returns the visible rows in some order consistent with
ORDER BY timestamp DESC, truncated to n rows.  Ties carry no
constraint because the query names no secondary key. -/
def queryResult (n : Nat) (s : Store) (r : List Paste) : Prop :=
  ∃ full : List Paste,
    full.Perm (visible s) ∧ tsDescSorted full ∧ r = full.take n

/-- The listing of the index route, with its literal limit 10. -/
def indexListing (s : Store) (r : List Paste) : Prop :=
  queryResult 10 s r

/-- Modelled from the spec: ListRecentVisible orders by timestamp
descending with ties broken by insertion order (sections 3 and 4.2 of
the spec).  A stable insertion sort realizes exactly that order; this
definition follows the words of the spec and is compared with
queryResult, the semantics of the source query. -/
def insertDescByTs (p : Paste) : List Paste → List Paste
  | [] => [p]
  | q :: t =>
    if q.timestamp < p.timestamp then p :: q :: t else q :: insertDescByTs p t

/-- Modelled from the spec: the listing with deterministic
insertion-order tiebreak, for comparison with the source query. -/
def listRecentVisibleSpec (limit : Nat) (s : Store) : List Paste :=
  ((visible s).foldl (fun acc p => insertDescByTs p acc) []).take limit

/-! ### The operations of the system, as one step type

Every route handler and the scheduled sweep, seen as transformers of
the Paste table.  The two read-only routes are included so that
statements over all operations cover them. -/

/-- One operation of the system. -/
inductive Op where
  /-- A POST to the index route. -/
  | opCreate (choices : List String) (genId : String) (now : Int)
      (body language : String)
  /-- One run of cleanup_old_pastes. -/
  | opSweep (nowUtc tzOffset : Int)
  /-- A GET of one paste; reads only. -/
  | opView (id : String)
  /-- A GET of the index listing; reads only. -/
  | opList

/-- Effect of one operation on the Paste table.  A failed create
leaves the table unchanged: the IntegrityError aborts the transaction
and a validation failure never reaches the insert. -/
def applyOp (op : Op) (s : Store) : Store :=
  match op with
  | Op.opCreate choices g now b l =>
    match create choices g now s b l with
    | CreateResult.ok _ s' => s'
    | CreateResult.integrityError => s
    | CreateResult.validationError s' => s'
  | Op.opSweep nowUtc tzOffset => cleanup_old_pastes nowUtc tzOffset s
  | Op.opView _ => s
  | Op.opList => s

/-! ### Concrete rows used by the closed statements -/

/-- A stored row whose id the generator will hit again. -/
def pColl : Paste :=
  { id := "abc123", body := "old", language := "python", timestamp := 0,
    deleted := false }

/-- A row five minutes old at UTC time 1000: not yet expired by the
retention window of the spec. -/
def pFresh : Paste :=
  { id := "f1", body := "x", language := "python", timestamp := 995,
    deleted := false }

/-- Two visible rows with equal timestamps, in insertion order pA
then pB. -/
def pA : Paste :=
  { id := "idA", body := "a", language := "python", timestamp := 5,
    deleted := false }

/-- Second row of the equal-timestamp pair. -/
def pB : Paste :=
  { id := "idB", body := "b", language := "python", timestamp := 5,
    deleted := false }

/-- A row whose language no installed lexer recognizes. -/
def pBadLang : Paste :=
  { id := "zz", body := "body", language := "klingon", timestamp := 0,
    deleted := false }

/-- An already soft-deleted row. -/
def pDel : Paste :=
  { id := "d1", body := "x", language := "python", timestamp := -100,
    deleted := true }

/-- A visible row far older than any retention window. -/
def pOld : Paste :=
  { id := "old1", body := "x", language := "python", timestamp := -1000000,
    deleted := false }

/-! ### Helper lemmas -/

/-- Applying the sweep update twice to one row is the same as applying
it once. -/
theorem markExpired_idem (cutoff : Int) (p : Paste) :
    markExpired cutoff (markExpired cutoff p) = markExpired cutoff p := by
  simp only [markExpired]
  by_cases h : p.timestamp < cutoff <;> simp [h]

/-- The sweep update never changes the id column. -/
theorem markExpired_id (cutoff : Int) (p : Paste) :
    (markExpired cutoff p).id = p.id := by
  simp only [markExpired]
  by_cases h : p.timestamp < cutoff <;> simp [h]

/-- The sweep update never clears the deleted flag. -/
theorem markExpired_mono (cutoff : Int) (p : Paste) (h : p.deleted = true) :
    (markExpired cutoff p).deleted = true := by
  simp only [markExpired]
  by_cases hc : p.timestamp < cutoff <;> simp [hc, h]

/-- After the sweep update, no row is both visible and older than the
cutoff. -/
theorem markExpired_not_pending (cutoff : Int) (p : Paste) :
    (!(markExpired cutoff p).deleted &&
      decide ((markExpired cutoff p).timestamp < cutoff)) = false := by
  simp only [markExpired]
  by_cases h : p.timestamp < cutoff <;> simp [h]

/-- One sweep leaves no row for a second sweep with the same cutoff to
mark. -/
theorem newlyMarkedCount_after (cutoff : Int) (s : Store) :
    newlyMarkedCount cutoff (expireOlderThan cutoff s) = 0 := by
  induction s with
  | nil => rfl
  | cons p t ih =>
    simp only [newlyMarkedCount, expireOlderThan, List.map_cons,
      List.filter_cons, markExpired_not_pending] at *
    simpa using ih

/-- The sweep is idempotent on the whole table. -/
theorem expireOlderThan_idem (cutoff : Int) (s : Store) :
    expireOlderThan cutoff (expireOlderThan cutoff s) =
      expireOlderThan cutoff s := by
  simp only [expireOlderThan, List.map_map]
  exact List.map_congr_left fun p _ => markExpired_idem cutoff p

/-- When no row of s satisfies the predicate, the first match in
s ++ [x] is decided by x alone. -/
theorem find?_append_singleton (pr : Paste → Bool) (s : Store) (x : Paste)
    (h : ∀ q ∈ s, pr q = false) :
    (s ++ [x]).find? pr = if pr x then some x else none := by
  induction s with
  | nil =>
    simp only [List.nil_append, List.find?]
    by_cases hx : pr x <;> simp [hx]
  | cons a t ih =>
    have ha := h a (by simp)
    simp only [List.cons_append, List.find?_cons, ha]
    exact ih fun q hq => h q (by simp [hq])

/-- A row returned by the visible-row query is a stored row with the
queried id and a clear deleted flag. -/
theorem getVisible_some (s : Store) (id : String) (p : Paste)
    (h : getVisible s id = some p) :
    p ∈ s ∧ p.id = id ∧ p.deleted = false := by
  have hm := List.mem_of_find?_eq_some h
  have hp := List.find?_some h
  simp only [Bool.and_eq_true, beq_iff_eq, Bool.not_eq_true'] at hp
  exact ⟨hm, hp.1, hp.2⟩

/-- Under the primary-key constraint, a soft-deleted row makes its id
invisible to the query. -/
theorem getVisible_none_of_deleted (s : Store) (id : String)
    (hN : (s.map Paste.id).Nodup) (p : Paste) (hp : p ∈ s)
    (hid : p.id = id) (hdel : p.deleted = true) :
    getVisible s id = none := by
  rw [getVisible, List.find?_eq_none]
  intro q hq hpred
  simp only [Bool.and_eq_true, beq_iff_eq, Bool.not_eq_true'] at hpred
  have hqp : q = p :=
    List.inj_on_of_nodup_map hN hq hp (by rw [hpred.1, hid])
  rw [hqp] at hpred
  rw [hdel] at hpred
  exact absurd hpred.2 (by simp)

/-- An id held by no row is invisible to the query. -/
theorem getVisible_none_of_absent (s : Store) (id : String)
    (h : ∀ p ∈ s, p.id ≠ id) :
    getVisible s id = none := by
  rw [getVisible, List.find?_eq_none]
  intro q hq hpred
  simp only [Bool.and_eq_true, beq_iff_eq, Bool.not_eq_true'] at hpred
  exact h q hq hpred.1

/-- Under the primary-key constraint, the query returns a stored
visible row with the queried id, whatever its timestamp. -/
theorem getVisible_mem (s : Store) (id : String) (p : Paste)
    (hN : (s.map Paste.id).Nodup) (hp : p ∈ s) (hid : p.id = id)
    (hdel : p.deleted = false) :
    getVisible s id = some p := by
  induction s with
  | nil => cases hp
  | cons q t ih =>
    by_cases hq : (q.id == id && !q.deleted) = true
    · simp only [Bool.and_eq_true, beq_iff_eq, Bool.not_eq_true'] at hq
      have hqp : q = p :=
        List.inj_on_of_nodup_map hN (by simp) hp (by rw [hq.1, hid])
      rw [getVisible, List.find?_cons]
      simp only [hqp, hid, hdel, beq_self_eq_true, Bool.not_false,
        Bool.and_self]
    · have hq' : (q.id == id && !q.deleted) = false := by
        simpa using hq
      have hpt : p ∈ t := by
        cases hp with
        | head =>
          exfalso
          apply hq
          simp [hid, hdel]
        | tail _ hmem => exact hmem
      have hgv := ih (by simpa using hN.of_cons) hpt
      rw [getVisible, List.find?_cons, hq']
      exact hgv

/-- A create either leaves the table unchanged or appends one row. -/
theorem applyOp_create_cases (choices : List String) (g : String)
    (now : Int) (b l : String) (s : Store) :
    applyOp (Op.opCreate choices g now b l) s = s ∨
    ∃ x : Paste, applyOp (Op.opCreate choices g now b l) s = s ++ [x] := by
  simp only [applyOp, create]
  by_cases h1 : formValidates choices b l
  · simp only [h1, if_true]
    by_cases h2 : s.any fun p => p.id == g
    · simp [h2]
    · simp only [Bool.not_eq_true] at h2
      simp only [h2, Bool.false_eq_true, if_false]
      exact Or.inr ⟨_, rfl⟩
  · simp only [Bool.not_eq_true] at h1
    simp [h1]

/-! ### Claim theorems -/

/-- C1: the claim states that creation verifies id uniqueness and, on
collision, retries generation up to a bounded limit, failing with
ResourceExhausted when every attempt collides.  The source makes a
single attempt: when the one generated candidate equals an existing
primary key, the commit raises an IntegrityError that the handler does
not catch, and no retry and no ResourceExhausted error exist in the
code.  This theorem evaluates the creation path at the failing input:
a table holding id abc123 and a generator producing abc123 again. -/
theorem c1_single_attempt_integrity_error :
    create ["python"] "abc123" 1 [pColl] "hello" "python" =
      CreateResult.integrityError := by
  rfl

/-- C2: the claim states that each sweep computes its cutoff as the
current UTC time minus the retention window.  The source computes
datetime.now() - timedelta(minutes = 10), a naive LOCAL wall-clock
reading, while the stored timestamps are UTC readings.  At UTC time
1000 on a server with offset +60 minutes, the row pFresh is only five
minutes old, so the cutoff of the spec would leave it alone, yet the
sweep of the source marks it deleted: the two cutoffs disagree as
soon as the server timezone is not UTC. -/
theorem c2_cleanup_uses_local_clock :
    cleanup_old_pastes 1000 60 [pFresh] = [{ pFresh with deleted := true }] ∧
    ¬(pFresh.timestamp < specCutoff 1000) ∧
    cleanup_old_pastes 1000 60 [pFresh] ≠
      expireOlderThan (specCutoff 1000) [pFresh] := by
  refine ⟨by decide, by decide, by decide⟩

/-- C4: the sweep is idempotent and does not affect already-deleted
rows: repeating it with the same cutoff changes nothing, the second
run newly marks zero records, and one run of cleanup_old_pastes
repeated at the same instant equals a single run. -/
theorem c4_expire_idempotent (cutoff nowUtc tzOffset : Int) (s : Store) :
    expireOlderThan cutoff (expireOlderThan cutoff s) =
      expireOlderThan cutoff s ∧
    newlyMarkedCount cutoff (expireOlderThan cutoff s) = 0 ∧
    cleanup_old_pastes nowUtc tzOffset (cleanup_old_pastes nowUtc tzOffset s) =
      cleanup_old_pastes nowUtc tzOffset s :=
  ⟨expireOlderThan_idem cutoff s, newlyMarkedCount_after cutoff s,
    expireOlderThan_idem (codeCutoff nowUtc tzOffset) s⟩

/-- C5: under the primary-key constraint, the retrieval query returns
a row exactly when a row with the queried id exists with a clear
deleted flag; for a soft-deleted id and for an id no row ever held,
the route answers with the same not-found page. -/
theorem c5_visibility (known : List String) (s : Store) (id : String)
    (hN : (s.map Paste.id).Nodup) :
    (∀ p, getVisible s id = some p →
      p ∈ s ∧ p.id = id ∧ p.deleted = false) ∧
    (∀ p, p ∈ s → p.id = id → p.deleted = true →
      pasteRoute known s id = PageResult.notFound) ∧
    ((∀ p ∈ s, p.id ≠ id) →
      pasteRoute known s id = PageResult.notFound) := by
  refine ⟨fun p h => getVisible_some s id p h, ?_, ?_⟩
  · intro p hp hid hdel
    rw [pasteRoute, getVisible_none_of_deleted s id hN p hp hid hdel]
  · intro h
    rw [pasteRoute, getVisible_none_of_absent s id h]

/-- C5 witness: with one soft-deleted row in the table, its id and a
never-used id both render the not-found page. -/
theorem c5_witness :
    pasteRoute ["python"] [pDel] "d1" = PageResult.notFound ∧
    pasteRoute ["python"] [pDel] "zzzzzz" = PageResult.notFound :=
  ⟨(c5_visibility ["python"] [pDel] "d1" (by decide)).2.1 pDel
      (by decide) rfl rfl,
    (c5_visibility ["python"] [pDel] "zzzzzz" (by decide)).2.2
      (by decide)⟩

/-- C6: the claim states that rendering a stored paste whose language
is not a recognized grammar falls back to plain text instead of
raising.  The source calls get_lexer_by_name outside any exception
handler, so an unrecognized language raises ClassNotFound and the
request fails with a server error.  This theorem evaluates the route
at the failing input: a visible row with language klingon while only
python and text are installed. -/
theorem c6_unrecognized_language_crashes :
    getVisible [pBadLang] "zz" = some pBadLang ∧
    pasteRoute ["python", "text"] [pBadLang] "zz" =
      PageResult.serverError := by
  refine ⟨by decide, by decide⟩

/-- C3 counterexample: the claim states that equal timestamps are
ordered by insertion, making the listing deterministic.  The source
query names no secondary sort key, so on two visible rows inserted as
pA then pB with equal timestamps, the sequence pB, pA is an
admissible result of the query, yet it differs from the
insertion-order listing of the spec. -/
theorem c3_counterexample :
    indexListing [pA, pB] [pB, pA] ∧
    [pB, pA] ≠ listRecentVisibleSpec 10 [pA, pB] := by
  refine ⟨⟨[pB, pA], by decide, ?_, rfl⟩, by decide⟩
  unfold tsDescSorted
  decide

/-- C3 amended: every admissible result of the listing query holds at
most n rows, is ordered by timestamp descending, and contains only
stored non-deleted rows; the relative order of rows with equal
timestamps is not constrained by the query. -/
theorem c3_listing_sorted_bounded (n : Nat) (s : Store) (r : List Paste)
    (h : queryResult n s r) :
    r.length ≤ n ∧ tsDescSorted r ∧
    ∀ p ∈ r, p ∈ s ∧ p.deleted = false := by
  obtain ⟨full, hperm, hsort, hr⟩ := h
  subst hr
  refine ⟨?_, ?_, ?_⟩
  · rw [List.length_take]
    exact min_le_left _ _
  · exact List.Pairwise.sublist (List.take_sublist n full) hsort
  · intro p hp
    have hfull : p ∈ full := List.take_subset n full hp
    have hv : p ∈ visible s := hperm.mem_iff.mp hfull
    rw [visible, List.mem_filter] at hv
    exact ⟨hv.1, by simpa using hv.2⟩

/-- C3 witness: the amended statement evaluated on the two-row table,
with the insertion-order sequence as the chosen admissible result. -/
theorem c3_witness :
    [pA, pB].length ≤ 10 ∧ tsDescSorted [pA, pB] ∧
    ∀ p ∈ [pA, pB], p ∈ [pA, pB] ∧ p.deleted = false :=
  c3_listing_sorted_bounded 10 [pA, pB] [pA, pB]
    ⟨[pA, pB], by decide, by unfold tsDescSorted; decide, rfl⟩

/-- C7: a create with a blank body, or with a language outside the
choices enumerated from the installed lexers, fails form validation
and leaves the table unchanged; the insert is never reached. -/
theorem c7_validation (choices : List String) (g : String) (now : Int)
    (s : Store) :
    create choices g now s "" "python" = CreateResult.validationError s ∧
    (choices.contains "" = false →
      create choices g now s "x" "" = CreateResult.validationError s) := by
  constructor
  · have h : isBlank "" = true := rfl
    simp [create, formValidates, h]
  · intro hc
    have h : isBlank "x" = false := rfl
    have hv : formValidates choices "x" "" = false := by
      rw [formValidates, h]
      simpa using hc
    simp [create, hv]

/-- C7 witness: both rejected creates evaluated on the empty table
with the lexer enumeration holding python. -/
theorem c7_witness :
    create ["python"] "QQQQQQ" 0 [] "" "python" =
      CreateResult.validationError [] ∧
    create ["python"] "QQQQQQ" 0 [] "x" "" =
      CreateResult.validationError [] :=
  ⟨(c7_validation ["python"] "QQQQQQ" 0 []).1,
    (c7_validation ["python"] "QQQQQQ" 0 []).2 rfl⟩

/-- C8: a successful create returns the generated id and appends a
row carrying the given body and language with a clear deleted flag,
and retrieving that id immediately afterwards returns exactly that
row. -/
theorem c8_create_then_retrieve (choices : List String) (g : String)
    (now : Int) (s : Store) (b l r : String) (s' : Store)
    (h : create choices g now s b l = CreateResult.ok r s') :
    r = g ∧ getVisible s' r =
      some { id := g, body := b, language := l, timestamp := now,
             deleted := false } := by
  unfold create at h
  by_cases h1 : formValidates choices b l
  · rw [if_pos h1] at h
    by_cases h2 : s.any fun p => p.id == g
    · rw [if_pos h2] at h
      cases h
    · rw [if_neg h2] at h
      injection h with hr hs
      subst hr
      subst hs
      refine ⟨rfl, ?_⟩
      rw [getVisible, find?_append_singleton]
      · simp
      · intro q hq
        simp only [Bool.not_eq_true] at h2
        rw [List.any_eq_false] at h2
        simp [h2 q hq]
  · rw [if_neg h1] at h
    cases h

/-- C8 witness: creating hello in python on the empty table yields id
AAAAAA, immediately retrievable with matching columns. -/
theorem c8_witness :
    "AAAAAA" = "AAAAAA" ∧
    getVisible [{ id := "AAAAAA", body := "hello", language := "python",
                  timestamp := 7, deleted := false }] "AAAAAA" =
      some { id := "AAAAAA", body := "hello", language := "python",
             timestamp := 7, deleted := false } :=
  c8_create_then_retrieve ["python"] "AAAAAA" 7 [] "hello" "python"
    "AAAAAA"
    [{ id := "AAAAAA", body := "hello", language := "python",
       timestamp := 7, deleted := false }] rfl

/-- C9: the deleted flag is a one-way latch: a row created by a
successful create starts with the flag clear, and no operation of the
system moves the flag of any stored row from true back to false. -/
theorem c9_deleted_one_way (op : Op) (s : Store) :
    (∀ (i : Nat) (p : Paste), s[i]? = some p → p.deleted = true →
      ∃ p' : Paste, (applyOp op s)[i]? = some p' ∧ p'.id = p.id ∧
        p'.deleted = true) ∧
    (∀ choices g now b l r s',
      create choices g now s b l = CreateResult.ok r s' →
      s'[s.length]? =
        some { id := g, body := b, language := l, timestamp := now,
               deleted := false }) := by
  constructor
  · intro i p hip hdel
    match op with
    | Op.opView _ => exact ⟨p, hip, rfl, hdel⟩
    | Op.opList => exact ⟨p, hip, rfl, hdel⟩
    | Op.opSweep nowUtc tzOffset =>
      refine ⟨markExpired (codeCutoff nowUtc tzOffset) p, ?_,
        markExpired_id _ _, markExpired_mono _ _ hdel⟩
      simp only [applyOp, cleanup_old_pastes, expireOlderThan,
        List.getElem?_map, hip]
      rfl
    | Op.opCreate choices g now b l =>
      have hi : i < s.length := (List.getElem?_eq_some.mp hip).1
      rcases applyOp_create_cases choices g now b l s with hshape | ⟨x, hshape⟩
      · exact ⟨p, by rw [hshape]; exact hip, rfl, hdel⟩
      · refine ⟨p, ?_, rfl, hdel⟩
        rw [hshape, List.getElem?_append_left hi]
        exact hip
  · intro choices g now b l r s' h
    unfold create at h
    by_cases h1 : formValidates choices b l
    · rw [if_pos h1] at h
      by_cases h2 : s.any fun p => p.id == g
      · rw [if_pos h2] at h
        cases h
      · rw [if_neg h2] at h
        injection h with hr hs
        subst hs
        exact List.getElem?_concat_length s _
    · rw [if_neg h1] at h
      cases h

/-- C9 witness: the latch evaluated at one sweep over a table holding
one already-deleted row. -/
theorem c9_witness :
    ∃ p', (applyOp (Op.opSweep 0 0) [pDel])[0]? = some p' ∧
      p'.id = pDel.id ∧ p'.deleted = true :=
  (c9_deleted_one_way (Op.opSweep 0 0) [pDel]).1 0 pDel rfl rfl

/-- C10: read-time visibility depends only on the deleted flag, never
on age: any stored row with a clear flag is returned by retrieval
whatever its timestamp, and a row far older than the retention window
still appears in the listing until a sweep actually marks it. -/
theorem c10_visibility_ignores_age (s : Store) (id : String) (p : Paste)
    (hN : (s.map Paste.id).Nodup) (hp : p ∈ s) (hid : p.id = id)
    (hdel : p.deleted = false) :
    getVisible s id = some p ∧
    indexListing [pOld] [pOld] ∧
    pOld.timestamp < codeCutoff 0 0 := by
  refine ⟨getVisible_mem s id p hN hp hid hdel,
    ⟨[pOld], by decide, ?_, rfl⟩, by decide⟩
  unfold tsDescSorted
  decide

/-- C10 witness: the row a million minutes old is still retrieved and
still listed. -/
theorem c10_witness :
    getVisible [pOld] "old1" = some pOld ∧
    indexListing [pOld] [pOld] ∧
    pOld.timestamp < codeCutoff 0 0 :=
  c10_visibility_ignores_age [pOld] "old1" pOld (by decide) (by decide)
    rfl rfl

end SimplePastebin
